import Mathlib

/-!
Shallow embedding of the notebook
`resources/SP20/extra/ValidationSet_Pitfall.ipynb`.

Data values are rationals.  Calls into scikit-learn and numpy that are
external to the repository (tree fitting, prediction, scoring, the seeded
permutation used by train_test_split, the uniform draws of the global numpy
RNG) are parameters of the embedding; everything written in the notebook
itself (gen_data, the two selection algorithms, estimate_variance, the
numpy aggregation helpers mean / var / argmin / argmax and Python range
semantics) is translated directly from the source.
-/

namespace ValidationPitfall

/-- Embedding of np.mean on a 1-D array of rationals (mean of the list;
on the empty list rational division by zero yields 0). -/
def npMean (l : List ℚ) : ℚ := l.sum / l.length

/-- Embedding of np.var: population variance, the mean of squared
deviations from the mean. -/
def npVar (l : List ℚ) : ℚ := npMean (l.map (fun x => (x - npMean l) ^ 2))

/-- Embedding of sklearn.metrics.mean_squared_error: mean of pointwise
squared differences. -/
def mean_squared_error (pred target : List ℚ) : ℚ :=
  npMean (List.zipWith (fun a b => (a - b) ^ 2) pred target)

/-- A numpy array that is either 1-D or 2-D: the notebook passes both
shapes as the label argument of model.fit, so the embedding keeps the
dynamic shape. -/
inductive NpArr where
  | d1 : List ℚ → NpArr
  | d2 : List (List ℚ) → NpArr
deriving Repr, DecidableEq

/-- Fancy indexing a[idx] of a numpy array by a list of row indices. -/
def NpArr.index (a : NpArr) (idx : List Nat) : NpArr :=
  match a with
  | .d1 l => .d1 (idx.map (fun i => l.getD i 0))
  | .d2 l => .d2 (idx.map (fun i => l.getD i []))

/-- State of a DecisionTreeRegressor object: its hyperparameters and the
training data of its most recent fit call (fit overwrites this state in
place; the embedding passes the state explicitly). -/
structure TreeModel where
  maxDepth : Nat
  randomState : Option Nat
  lastFit : Option (List (List ℚ) × NpArr)
deriving Repr, DecidableEq

/-- Embedding of model.fit(X, y): stores the training data, keeping the
hyperparameters. -/
def TreeModel.fit (m : TreeModel) (X : List (List ℚ)) (y : NpArr) : TreeModel :=
  TreeModel.mk m.maxDepth m.randomState (some (X, y))

/-- Embedding of np.argmin on a 1-D array: index of the first occurrence
of the minimum (0 on the empty list, where numpy instead raises). -/
def argminIdx : List ℚ → Nat
  | [] => 0
  | [_] => 0
  | x :: y :: xs =>
    let j := argminIdx (y :: xs)
    if (y :: xs).getD j 0 < x then j + 1 else 0

/-- Embedding of np.argmax on a 1-D array: index of the first occurrence
of the maximum (0 on the empty list, where numpy instead raises). -/
def argmaxIdx : List ℚ → Nat
  | [] => 0
  | [_] => 0
  | x :: y :: xs =>
    let j := argmaxIdx (y :: xs)
    if x < (y :: xs).getD j 0 then j + 1 else 0

/-- Number of elements of Python range(a, b, s) for positive step s. -/
def pyRangeLen (a b s : Nat) : Nat := if a < b then (b - a - 1) / s + 1 else 0

/-- Embedding of Python range(a, b, s) for positive step s. -/
def pyRange (a b s : Nat) : List Nat := List.range' a (pyRangeLen a b s) s

theorem argminIdx_lt_length : ∀ l : List ℚ, l ≠ [] → argminIdx l < l.length
  | [], h => absurd rfl h
  | [_], _ => Nat.zero_lt_one
  | x :: y :: xs, _ => by
    have ih := argminIdx_lt_length (y :: xs) (by simp)
    simp only [argminIdx]
    split
    · simp only [List.length_cons] at ih ⊢
      omega
    · simp

theorem argmaxIdx_lt_length : ∀ l : List ℚ, l ≠ [] → argmaxIdx l < l.length
  | [], h => absurd rfl h
  | [_], _ => Nat.zero_lt_one
  | x :: y :: xs, _ => by
    have ih := argmaxIdx_lt_length (y :: xs) (by simp)
    simp only [argmaxIdx]
    split
    · simp only [List.length_cons] at ih ⊢
      omega
    · simp

theorem argmaxIdx_le : ∀ (l : List ℚ) (i : Nat), i < l.length →
    l.getD i 0 ≤ l.getD (argmaxIdx l) 0
  | [], i, h => by simp at h
  | [a], i, h => by
    have : i = 0 := by simpa using Nat.lt_one_iff.mp (by simpa using h)
    simp [this, argmaxIdx]
  | x :: y :: xs, i, h => by
    have ih := argmaxIdx_le (y :: xs)
    simp only [argmaxIdx]
    by_cases hc : x < (y :: xs).getD (argmaxIdx (y :: xs)) 0
    · rw [if_pos hc]
      cases i with
      | zero => simpa using le_of_lt hc
      | succ i => simpa using ih i (by simpa using h)
    · rw [if_neg hc]
      cases i with
      | zero => simp
      | succ i =>
        have h1 := ih i (by simpa using h)
        have h2 : (y :: xs).getD (argmaxIdx (y :: xs)) 0 ≤ x := le_of_not_lt hc
        simpa using le_trans h1 h2

theorem argmaxIdx_first : ∀ (l : List ℚ) (j : Nat), j < argmaxIdx l →
    l.getD j 0 < l.getD (argmaxIdx l) 0
  | [], j, h => by simp [argmaxIdx] at h
  | [a], j, h => by simp [argmaxIdx] at h
  | x :: y :: xs, j, h => by
    have ih := argmaxIdx_first (y :: xs)
    simp only [argmaxIdx] at h ⊢
    by_cases hc : x < (y :: xs).getD (argmaxIdx (y :: xs)) 0
    · rw [if_pos hc]
      rw [if_pos hc] at h
      cases j with
      | zero => simpa using hc
      | succ j => simpa using ih j (Nat.lt_of_succ_lt_succ h)
    · rw [if_neg hc] at h
      simp at h

section GenData

variable {R : Type}

/-- A sequence of k draws of np.random.random() from the global RNG,
threaded through the abstract generator next. -/
def draws (next : R → ℚ × R) : Nat → R → List ℚ × R
  | 0, g => ([], g)
  | k + 1, g =>
    let p := next g
    let rest := draws next k p.2
    (p.1 :: rest.1, rest.2)

/-- One row of gen_data: 100 random features followed by the goal value
y = sum(row[:3]) + np.random.random()**2. -/
def genRow (next : R → ℚ × R) (g : R) : List ℚ × R :=
  let r := draws next 100 g
  let nz := next r.2
  (r.1 ++ [(r.1.take 3).sum + nz.1 ^ 2], nz.2)

/-- The data list built by the for-loop of gen_data: n rows generated from
consecutive draws of the global RNG. -/
def genRows (next : R → ℚ × R) : Nat → R → List (List ℚ) × R
  | 0, g => ([], g)
  | n + 1, g =>
    let row := genRow next g
    let rest := genRows next n row.2
    (row.1 :: rest.1, rest.2)

/-- Index-level embedding of sklearn train_test_split with its default
shuffling: a permutation of range n seeded by random_state puts the test
fold in its first nTest positions and the train fold in the remaining
n - nTest. The permutation itself is external library code, passed in as
the parameter shuffle. Returns (train indices, test indices). -/
def trainTestSplit (shuffle : Nat → Nat → List Nat) (seed n nTest : Nat) :
    List Nat × List Nat :=
  let perm := shuffle seed n
  ((perm.drop nTest).take (n - nTest), perm.take nTest)

/-- The two chained train_test_split calls of gen_data, at the level of
row indices into the 500-row dataframe: first 500 rows split off a test
half (test_size=0.5, so 250 rows), then the remaining 250 rows split into
train and validation (test_size=0.2, so 50 validation rows).  Both calls
pass random_state=seed.  Returns (train, validation, test) index lists. -/
def genSplits (shuffle : Nat → Nat → List Nat) (seed : Nat) :
    List Nat × List Nat × List Nat :=
  let s1 := trainTestSplit shuffle seed 500 250
  let notTest := s1.1
  let s2 := trainTestSplit shuffle seed 250 50
  (s2.1.map (fun i => notTest.getD i 0), s2.2.map (fun i => notTest.getD i 0), s1.2)

/-- Feature columns x0..x99 of a row of the dataframe. -/
def featuresOf (row : List ℚ) : List ℚ := row.take 100

/-- Goal column y of a row of the dataframe. -/
def goalOf (row : List ℚ) : ℚ := row.getD 100 0

set_option linter.unusedVariables false in
/-- Embedding of gen_data.  np.random.seed(seed) replaces the global RNG
state with one determined by the seed alone (seedFn); the 500 rows are
then generated from consecutive draws, and the dataframe is split by the
two train_test_split calls.  Returns the six-tuple
((x_train, x_valid, x_test), (y_train, y_valid, y_test)) together with
the global RNG state left behind. -/
def gen_data (seedFn : Nat → R) (next : R → ℚ × R)
    (shuffle : Nat → Nat → List Nat) (g : R) (seed : Nat) :
    ((List (List ℚ) × List (List ℚ) × List (List ℚ)) ×
      (List ℚ × List ℚ × List ℚ)) × R :=
  let g0 := seedFn seed
  let rows := genRows next 500 g0
  let feats := rows.1.map featuresOf
  let goals := rows.1.map goalOf
  let idx := genSplits shuffle seed
  (((idx.1.map (fun i => feats.getD i []), idx.2.1.map (fun i => feats.getD i []),
      idx.2.2.map (fun i => feats.getD i [])),
    (idx.1.map (fun i => goals.getD i 0), idx.2.1.map (fun i => goals.getD i 0),
      idx.2.2.map (fun i => goals.getD i 0))), rows.2)

/-- The identity permutation, a concrete instance of the shuffle
parameter. -/
def shuffleId : Nat → Nat → List Nat := fun _ n => List.range n

theorem draws_length (next : R → ℚ × R) : ∀ (k : Nat) (g : R),
    (draws next k g).1.length = k
  | 0, _ => rfl
  | k + 1, g => by simp [draws, draws_length next k]

theorem genRows_length (next : R → ℚ × R) : ∀ (n : Nat) (g : R),
    (genRows next n g).1.length = n
  | 0, _ => rfl
  | n + 1, g => by simp [genRows, genRows_length next n]

theorem genRows_rows (next : R → ℚ × R) : ∀ (n : Nat) (g : R),
    ∀ row ∈ (genRows next n g).1, ∃ g0, row = (genRow next g0).1
  | 0, _, row, h => by simp [genRows] at h
  | n + 1, g, row, h => by
    simp only [genRows, List.mem_cons] at h
    rcases h with h | h
    · exact ⟨g, h⟩
    · exact genRows_rows next n _ row h

theorem map_getD_range (l : List Nat) :
    (List.range l.length).map (fun i => l.getD i 0) = l := by
  apply List.ext_getElem
  · simp
  · intro i h1 h2
    simp only [List.getElem_map, List.getElem_range]
    exact List.getD_eq_getElem l 0 h2

/-- C5: for every seed (and every RNG instantiation), gen_data builds a
data list of 500 rows; each row consists of 100 features, each a fresh
draw of the global RNG, followed by the goal value
y = x0 + x1 + x2 + noise^2 where noise is one further fresh draw — so
the remaining 97 features do not enter the formula for y. -/
theorem gen_data_generates_500_rows_with_y_formula
    (seedFn : Nat → R) (next : R → ℚ × R) (seed : Nat) :
    (genRows next 500 (seedFn seed)).1.length = 500 ∧
    ∀ row ∈ (genRows next 500 (seedFn seed)).1, ∃ g0 : R,
      (draws next 100 g0).1.length = 100 ∧
      row = (draws next 100 g0).1 ++
        [((draws next 100 g0).1.take 3).sum + (next (draws next 100 g0).2).1 ^ 2] := by
  refine ⟨genRows_length next 500 _, fun row hrow => ?_⟩
  obtain ⟨g0, hg0⟩ := genRows_rows next 500 _ row hrow
  exact ⟨g0, draws_length next 100 g0, hg0⟩

/-- Closed witness for the row-structure theorem at a concrete RNG
instantiation (state Nat, every draw 0). -/
theorem gen_data_generates_500_rows_with_y_formula_witness :
    (genRows (fun g : Nat => ((0 : ℚ), g + 1)) 500 ((fun s : Nat => s) 42)).1.length =
      500 :=
  (gen_data_generates_500_rows_with_y_formula (fun s : Nat => s)
    (fun g : Nat => ((0 : ℚ), g + 1)) 42).1

/-- C6: whenever the seeded shuffles are permutations (which the external
train_test_split guarantees), the three index sets produced by gen_data
are pairwise disjoint and together cover all 500 rows. -/
theorem gen_data_partition (shuffle : Nat → Nat → List Nat) (seed : Nat)
    (h500 : List.Perm (shuffle seed 500) (List.range 500))
    (h250 : List.Perm (shuffle seed 250) (List.range 250)) :
    List.Perm
      ((genSplits shuffle seed).1 ++ (genSplits shuffle seed).2.1 ++
        (genSplits shuffle seed).2.2)
      (List.range 500) ∧
    (genSplits shuffle seed).1.Disjoint (genSplits shuffle seed).2.1 ∧
    (genSplits shuffle seed).1.Disjoint (genSplits shuffle seed).2.2 ∧
    (genSplits shuffle seed).2.1.Disjoint (genSplits shuffle seed).2.2 := by
  have l500 : (shuffle seed 500).length = 500 := by
    simpa using h500.length_eq
  have l250 : (shuffle seed 250).length = 250 := by
    simpa using h250.length_eq
  have lnotTest : ((shuffle seed 500).drop 250).length = 250 := by simp [l500]
  -- unfold genSplits into explicit take / drop form
  have hgs : genSplits shuffle seed =
      (((shuffle seed 250).drop 50).map
          (fun i => ((shuffle seed 500).drop 250).getD i 0),
        ((shuffle seed 250).take 50).map
          (fun i => ((shuffle seed 500).drop 250).getD i 0),
        (shuffle seed 500).take 250) := by
    simp only [genSplits, trainTestSplit]
    rw [show (500 : Nat) - 250 = 250 from rfl, show (250 : Nat) - 50 = 200 from rfl]
    rw [List.take_of_length_le (by simp [l500]), List.take_of_length_le (by simp [l250])]
  -- the second split rearranges exactly the non-test rows
  have hmap : List.Perm
      (((shuffle seed 250).take 50).map
          (fun i => ((shuffle seed 500).drop 250).getD i 0) ++
        ((shuffle seed 250).drop 50).map
          (fun i => ((shuffle seed 500).drop 250).getD i 0))
      ((shuffle seed 500).drop 250) := by
    have h1 : List.Perm ((shuffle seed 250).take 50 ++ (shuffle seed 250).drop 50)
        (List.range 250) := by
      simpa using h250
    have h2 := h1.map (fun i => ((shuffle seed 500).drop 250).getD i 0)
    rw [List.map_append] at h2
    have h3 : (List.range 250).map (fun i => ((shuffle seed 500).drop 250).getD i 0) =
        (shuffle seed 500).drop 250 := by
      have := map_getD_range ((shuffle seed 500).drop 250)
      rwa [lnotTest] at this
    rwa [h3] at h2
  -- the whole three-way split rearranges all 500 rows
  have hcover : List.Perm
      ((genSplits shuffle seed).1 ++ (genSplits shuffle seed).2.1 ++
        (genSplits shuffle seed).2.2)
      (List.range 500) := by
    rw [hgs]
    refine List.Perm.trans (List.Perm.append_right _ List.perm_append_comm)
      (List.Perm.trans (List.Perm.append_right _ hmap) ?_)
    refine List.Perm.trans List.perm_append_comm ?_
    rw [List.take_append_drop]
    exact h500
  have hnodup : ((genSplits shuffle seed).1 ++ (genSplits shuffle seed).2.1 ++
      (genSplits shuffle seed).2.2).Nodup :=
    hcover.symm.nodup (List.nodup_range 500)
  rw [List.append_assoc, List.nodup_append] at hnodup
  obtain ⟨-, hnodup2, hdisj1⟩ := hnodup
  rw [List.nodup_append] at hnodup2
  obtain ⟨-, -, hdisj23⟩ := hnodup2
  refine ⟨hcover, ?_, ?_, hdisj23⟩
  · intro a ha hb
    exact hdisj1 ha (List.mem_append_left _ hb)
  · intro a ha hb
    exact hdisj1 ha (List.mem_append_right _ hb)

/-- Closed witness for the partition theorem at the identity shuffle and
seed 42. -/
theorem gen_data_partition_witness :
    List.Perm (shuffleId 42 500) (List.range 500) ∧
    List.Perm
      ((genSplits shuffleId 42).1 ++ (genSplits shuffleId 42).2.1 ++
        (genSplits shuffleId 42).2.2)
      (List.range 500) ∧
    (genSplits shuffleId 42).1.Disjoint (genSplits shuffleId 42).2.1 ∧
    (genSplits shuffleId 42).1.Disjoint (genSplits shuffleId 42).2.2 ∧
    (genSplits shuffleId 42).2.1.Disjoint (genSplits shuffleId 42).2.2 :=
  ⟨List.Perm.refl _,
    gen_data_partition shuffleId 42 (List.Perm.refl _) (List.Perm.refl _)⟩

/-- C7: gen_data is deterministic in its seed: its six-tuple of returned
splits does not depend on the incoming global RNG state, because
np.random.seed(seed) replaces that state; hence two calls with the same
seed return identical six-tuples. -/
theorem gen_data_deterministic (seedFn : Nat → R) (next : R → ℚ × R)
    (shuffle : Nat → Nat → List Nat) (seed : Nat) (g g2 : R) :
    (gen_data seedFn next shuffle g seed).1 =
      (gen_data seedFn next shuffle g2 seed).1 := rfl

end GenData

section EstVar

variable {R : Type}

/-- The bootstrap loop of estimate_variance: each of the iterations draws
len(all_indices)//2 indices with replacement (np.random.choice on the
global RNG, abstracted as choiceFn), refits the model in place on the
indexed subsets, and records the refitted model's predictions on
x_valid.  Returns the list of predictions in iteration order together
with the model state and the RNG state left behind. -/
def evLoop (predictFn : TreeModel → List (List ℚ) → List ℚ)
    (choiceFn : R → Nat → Nat → List Nat × R)
    (xArr : List (List ℚ)) (yArr : NpArr) (x_valid : List (List ℚ)) (n : Nat) :
    Nat → TreeModel → R → List (List ℚ) × TreeModel × R
  | 0, model, g => ([], model, g)
  | k + 1, model, g =>
    let c := choiceFn g n (n / 2)
    let subset_x_train := c.1.map (fun i => xArr.getD i [])
    let model1 := model.fit subset_x_train (yArr.index c.1)
    let pred := predictFn model1 x_valid
    let rest := evLoop predictFn choiceFn xArr yArr x_valid n k model1 c.2
    (pred :: rest.1, rest.2)

/-- Embedding of estimate_variance.  The assert becomes Except.error when
the lengths differ.  Note the source line y_train = np.array(x_train),
which replaces the label array with the feature rows before the bootstrap
loop runs; the loop therefore fits the model on feature rows as labels.
Returns the mean over validation points of the per-point variance of the
collected predictions, together with the model state (mutated by the
fits inside the loop) and the RNG state. -/
def estimate_variance (predictFn : TreeModel → List (List ℚ) → List ℚ)
    (choiceFn : R → Nat → Nat → List Nat × R) (model : TreeModel)
    (x_train : List (List ℚ)) (y_train : List ℚ) (x_valid : List (List ℚ))
    (g : R) : Except String (ℚ × TreeModel × R) :=
  if x_train.length = y_train.length then
    let iters := 100
    let n := x_train.length
    let xArr := x_train
    let yArr := NpArr.d2 x_train
    let res := evLoop predictFn choiceFn xArr yArr x_valid n iters model g
    let preds := res.1
    let variances := (List.range x_valid.length).map
      (fun i => npVar (preds.map (fun pred => pred.getD i 0)))
    .ok (npMean variances, res.2)
  else
    .error "AssertionError: len(x_train) == len(y_train)"

/-- Concrete predict instance: the constant-zero predictor. -/
def predZero : TreeModel → List (List ℚ) → List ℚ := fun _ xs => xs.map (fun _ => 0)

/-- Concrete np.random.choice instance over the RNG state Nat: always
picks index 0. -/
def choiceZero : Nat → Nat → Nat → List Nat × Nat := fun g _ k => (List.replicate k 0, g)

/-- Concrete score instance: the constant-zero score. -/
def scoreZero : TreeModel → List (List ℚ) → List ℚ → ℚ := fun _ _ _ => 0

/-- The model state a run of estimate_variance leaves behind, if it did
not raise. -/
def modelOfRun (r : Except String (ℚ × TreeModel × Nat)) : Option TreeModel :=
  match r with
  | .ok p => some p.2.1
  | .error _ => none

theorem evLoop_entry_fit_irrelevant (predictFn : TreeModel → List (List ℚ) → List ℚ)
    (choiceFn : R → Nat → Nat → List Nat × R)
    (xArr : List (List ℚ)) (yArr : NpArr) (x_valid : List (List ℚ)) (n : Nat)
    (k : Nat) (d : Nat) (rs : Option Nat) (o1 o2 : Option (List (List ℚ) × NpArr))
    (g : R) :
    evLoop predictFn choiceFn xArr yArr x_valid n (k + 1) (TreeModel.mk d rs o1) g =
      evLoop predictFn choiceFn xArr yArr x_valid n (k + 1) (TreeModel.mk d rs o2) g := by
  simp [evLoop, TreeModel.fit]

theorem evLoop_keeps_hyperparams (predictFn : TreeModel → List (List ℚ) → List ℚ)
    (choiceFn : R → Nat → Nat → List Nat × R)
    (xArr : List (List ℚ)) (yArr : NpArr) (x_valid : List (List ℚ)) (n : Nat) :
    ∀ (k : Nat) (m : TreeModel) (g : R),
      (evLoop predictFn choiceFn xArr yArr x_valid n k m g).2.1.maxDepth = m.maxDepth ∧
      (evLoop predictFn choiceFn xArr yArr x_valid n k m g).2.1.randomState = m.randomState
  | 0, m, g => ⟨rfl, rfl⟩
  | k + 1, m, g => by
    have ih := evLoop_keeps_hyperparams predictFn choiceFn xArr yArr x_valid n k
    simp only [evLoop]
    exact ih _ _

end EstVar

section Algorithms

variable {R : Type}

/-- A freshly constructed DecisionTreeRegressor(max_depth, random_state):
not yet fitted. -/
def newTree (max_depth : Nat) (random_state : Option Nat) : TreeModel :=
  TreeModel.mk max_depth random_state none

/-- The validation score Algorithm 1 computes for one max_depth: fit a
fresh tree on the train split and score it on the validation split
(scoring itself is external library code, the parameter treeScoreFn). -/
def validScore (treeScoreFn : TreeModel → List (List ℚ) → List ℚ → ℚ)
    (x_train : List (List ℚ)) (y_train : List ℚ) (x_valid : List (List ℚ))
    (y_valid : List ℚ) (max_depth : Nat) : ℚ :=
  treeScoreFn ((newTree max_depth none).fit x_train (NpArr.d1 y_train)) x_valid y_valid

/-- Embedding of Algorithm 1 (the validation-score sweep): scores
max_depth = 1..999, takes np.argmax, refits a tree at the best depth and
scores it on the test split.  Returns
(best_depth, best_score, final tree, test score). -/
def algorithm1 (treeScoreFn : TreeModel → List (List ℚ) → List ℚ → ℚ)
    (x_train : List (List ℚ)) (y_train : List ℚ) (x_valid : List (List ℚ))
    (y_valid : List ℚ) (x_test : List (List ℚ)) (y_test : List ℚ) :
    Nat × ℚ × TreeModel × ℚ :=
  let depths := pyRange 1 1000 1
  let valid_scores := depths.map (validScore treeScoreFn x_train y_train x_valid y_valid)
  let best_index := argmaxIdx valid_scores
  let best_depth := depths.getD best_index 0
  let best_score := valid_scores.getD best_index 0
  let tree_using_valid_score := (newTree best_depth none).fit x_train (NpArr.d1 y_train)
  (best_depth, best_score, tree_using_valid_score,
    treeScoreFn tree_using_valid_score x_test y_test)

/-- The error Algorithm 2 computes for one max_depth: bias² on the
validation split plus the bootstrap variance estimate (which consumes
global RNG state and may raise the length assert). -/
def depthError (predictFn : TreeModel → List (List ℚ) → List ℚ)
    (choiceFn : R → Nat → Nat → List Nat × R)
    (x_train : List (List ℚ)) (y_train : List ℚ) (x_valid : List (List ℚ))
    (y_valid : List ℚ) (max_depth : Nat) (g : R) : Except String (ℚ × R) :=
  let tree := (newTree max_depth (some 2)).fit x_train (NpArr.d1 y_train)
  let valid_pred := predictFn tree x_valid
  let bias_squared := mean_squared_error valid_pred y_valid
  match estimate_variance predictFn choiceFn tree x_train y_train x_valid g with
  | .error e => .error e
  | .ok p => .ok (bias_squared + p.1, p.2.2)

/-- The depth list swept by one iteration of Algorithm 2's refinement
loop: range(lower, upper + 1, max((upper - lower) // 10, 1)). -/
def sweepDepths (lower upper : Nat) : List Nat :=
  pyRange lower (upper + 1) (max ((upper - lower) / 10) 1)

/-- The errors list built by the inner for-loop of one refinement
iteration; an exception in any error computation aborts the loop and
propagates. -/
def sweepErrors (errOf : Nat → R → Except String (ℚ × R)) :
    List Nat → R → Except String (List ℚ × R)
  | [], g => .ok ([], g)
  | d :: ds, g =>
    match errOf d g with
    | .error e => .error e
    | .ok p =>
      match sweepErrors errOf ds p.2 with
      | .error e => .error e
      | .ok q => .ok (p.1 :: q.1, q.2)

/-- One iteration of the while True refinement loop: sweep the depths,
take np.argmin of the errors, move the bounds to the depths adjacent to
the best one (clamped), and report none when both bounds are unchanged
(the break branch) or some (new_lower, new_upper) otherwise. -/
def refineStep (errOf : Nat → R → Except String (ℚ × R)) (lower upper : Nat)
    (g : R) : Except String ((Nat × ℚ) × Option (Nat × Nat) × R) :=
  let depths := sweepDepths lower upper
  match sweepErrors errOf depths g with
  | .error e => .error e
  | .ok p =>
    let errors := p.1
    let best_index := argminIdx errors
    let best_depth := depths.getD best_index 0
    let lowest_error := errors.getD best_index 0
    let new_lower := depths.getD (best_index - 1) 0
    let new_upper := depths.getD (min (depths.length - 1) (best_index + 1)) 0
    if new_lower = lower ∧ new_upper = upper then
      .ok ((best_depth, lowest_error), none, p.2)
    else
      .ok ((best_depth, lowest_error), some (new_lower, new_upper), p.2)

theorem sweepErrors_length (errOf : Nat → R → Except String (ℚ × R)) :
    ∀ (ds : List Nat) (g : R) (p : List ℚ × R),
      sweepErrors errOf ds g = .ok p → p.1.length = ds.length
  | [], g, p, h => by
    simp only [sweepErrors] at h
    cases h
    rfl
  | d :: ds, g, p, h => by
    simp only [sweepErrors] at h
    split at h
    · cases h
    · split at h
      · cases h
      · rename_i r hs
        cases h
        simpa using sweepErrors_length errOf ds _ r hs

theorem pyRangeLen_pos (a b s : Nat) (h : a < b) : 0 < pyRangeLen a b s := by
  simp [pyRangeLen, h]

theorem pyRange_getD (a b s i : Nat) (h : i < pyRangeLen a b s) :
    (pyRange a b s).getD i 0 = a + s * i := by
  have hl : i < (pyRange a b s).length := by simpa [pyRange] using h
  rw [List.getD_eq_getElem _ _ hl]
  exact List.getElem_range' _ _

theorem pyRange_getD_le (a c s i : Nat) (h : i < pyRangeLen a (c + 1) s) :
    a + s * i ≤ c := by
  have hac : a ≤ c := by
    by_contra hc
    simp [pyRangeLen, Nat.lt_succ_iff, hc] at h
  have hi : i ≤ (c - a) / s := by
    have he : c + 1 - a - 1 = c - a := by omega
    have : pyRangeLen a (c + 1) s = (c - a) / s + 1 := by
      simp [pyRangeLen, Nat.lt_succ_iff, hac, he]
    omega
  have h1 : s * i ≤ s * ((c - a) / s) := Nat.mul_le_mul_left s hi
  have h2 : s * ((c - a) / s) ≤ c - a := by
    rw [mul_comm]
    exact Nat.div_mul_le_self _ _
  omega

theorem refineStep_shrinks (errOf : Nat → R → Except String (ℚ × R))
    (lower upper : Nat) (g : R) (res : Nat × ℚ) (nl nu : Nat) (g1 : R)
    (h2 : lower ≤ upper)
    (h : refineStep errOf lower upper g = .ok (res, some (nl, nu), g1)) :
    lower ≤ nl ∧ nu ≤ upper ∧ nl ≤ nu ∧ (lower < nl ∨ nu < upper) ∧
      nu - nl < upper - lower := by
  have hlow : lower < upper + 1 := Nat.lt_succ_of_le h2
  have hL : 0 < pyRangeLen lower (upper + 1) (max ((upper - lower) / 10) 1) :=
    pyRangeLen_pos _ _ _ hlow
  have hlen : (sweepDepths lower upper).length =
      pyRangeLen lower (upper + 1) (max ((upper - lower) / 10) 1) := by
    simp [sweepDepths, pyRange]
  simp only [refineStep] at h
  split at h
  · cases h
  · rename_i p heq
    have herr : p.1.length = (sweepDepths lower upper).length :=
      sweepErrors_length errOf _ _ _ heq
    have hpne : p.1 ≠ [] := by
      intro hnil
      rw [hnil] at herr
      rw [hlen] at herr
      simp at herr
      omega
    have hbi : argminIdx p.1 < (sweepDepths lower upper).length := by
      rw [← herr]
      exact argminIdx_lt_length p.1 hpne
    rw [hlen] at hbi
    have hi1 : argminIdx p.1 - 1 <
        pyRangeLen lower (upper + 1) (max ((upper - lower) / 10) 1) := by omega
    have hi2 : min ((sweepDepths lower upper).length - 1) (argminIdx p.1 + 1) <
        pyRangeLen lower (upper + 1) (max ((upper - lower) / 10) 1) := by
      rw [hlen]
      omega
    split at h
    · cases h
    · rename_i hcond
      cases h
      have hnl : (sweepDepths lower upper).getD (argminIdx p.1 - 1) 0 =
          lower + (max ((upper - lower) / 10) 1) * (argminIdx p.1 - 1) :=
        pyRange_getD _ _ _ _ hi1
      have hnu : (sweepDepths lower upper).getD
          (min ((sweepDepths lower upper).length - 1) (argminIdx p.1 + 1)) 0 =
          lower + (max ((upper - lower) / 10) 1) *
            (min ((sweepDepths lower upper).length - 1) (argminIdx p.1 + 1)) :=
        pyRange_getD _ _ _ _ hi2
      have hA : lower ≤ (sweepDepths lower upper).getD (argminIdx p.1 - 1) 0 := by
        rw [hnl]
        exact Nat.le_add_right _ _
      have hB : (sweepDepths lower upper).getD
          (min ((sweepDepths lower upper).length - 1) (argminIdx p.1 + 1)) 0 ≤ upper := by
        rw [hnu]
        exact pyRange_getD_le _ _ _ _ hi2
      have hC : (sweepDepths lower upper).getD (argminIdx p.1 - 1) 0 ≤
          (sweepDepths lower upper).getD
            (min ((sweepDepths lower upper).length - 1) (argminIdx p.1 + 1)) 0 := by
        rw [hnl, hnu]
        have hij : argminIdx p.1 - 1 ≤
            min ((sweepDepths lower upper).length - 1) (argminIdx p.1 + 1) := by
          rw [hlen]
          omega
        exact Nat.add_le_add_left (Nat.mul_le_mul_left _ hij) _
      refine ⟨hA, hB, hC, ?_, ?_⟩ <;> omega

/-- Embedding of the while True refinement loop of Algorithm 2, with
the invariant lower ≤ upper carried to justify termination: each
iteration either breaks or strictly shrinks the interval. -/
def refineLoop (errOf : Nat → R → Except String (ℚ × R)) (lower upper : Nat)
    (g : R) (h2 : lower ≤ upper) : Except String ((Nat × ℚ) × R) :=
  match hstep : refineStep errOf lower upper g with
  | .error e => .error e
  | .ok (res, none, g1) => .ok (res, g1)
  | .ok (res, some (nl, nu), g1) =>
    have hs := refineStep_shrinks errOf lower upper g res nl nu g1 h2 hstep
    refineLoop errOf nl nu g1 hs.2.2.1
termination_by upper - lower
decreasing_by exact hs.2.2.2.2

/-- The selection phase of Algorithm 2: the refinement loop started at
lower = 1, upper = 1000, reading only the train and validation splits. -/
def algorithm2Select (predictFn : TreeModel → List (List ℚ) → List ℚ)
    (choiceFn : R → Nat → Nat → List Nat × R)
    (x_train : List (List ℚ)) (y_train : List ℚ) (x_valid : List (List ℚ))
    (y_valid : List ℚ) (g : R) : Except String ((Nat × ℚ) × R) :=
  refineLoop (depthError predictFn choiceFn x_train y_train x_valid y_valid)
    1 1000 g (by omega)

/-- Embedding of Algorithm 2 (refinement loop over bias² + variance,
then a test score for the selected depth).  Returns
((best_depth, lowest_error), test score), or the propagated exception. -/
def algorithm2 (predictFn : TreeModel → List (List ℚ) → List ℚ)
    (treeScoreFn : TreeModel → List (List ℚ) → List ℚ → ℚ)
    (choiceFn : R → Nat → Nat → List Nat × R)
    (x_train : List (List ℚ)) (y_train : List ℚ) (x_valid : List (List ℚ))
    (y_valid : List ℚ) (x_test : List (List ℚ)) (y_test : List ℚ) (g : R) :
    Except String ((Nat × ℚ) × ℚ) :=
  match algorithm2Select predictFn choiceFn x_train y_train x_valid y_valid g with
  | .error e => .error e
  | .ok (res, _) =>
    let tree_using_bias_variance := (newTree res.1 none).fit x_train (NpArr.d1 y_train)
    .ok (res, treeScoreFn tree_using_bias_variance x_test y_test)

/-- Concrete error-computation instance over RNG state Nat: always
returns error 0. -/
def errConst : Nat → Nat → Except String (ℚ × Nat) := fun _ g => .ok (0, g)

theorem getD_map_q (f : Nat → ℚ) (l : List Nat) (i : Nat) (h : i < l.length) :
    (l.map f).getD i 0 = f (l.getD i 0) := by
  have hm : i < (l.map f).length := by simpa using h
  rw [List.getD_eq_getElem _ _ hm, List.getD_eq_getElem _ _ h]
  simp

theorem sweep999_argmax (f : Nat → ℚ) :
    1 ≤ (pyRange 1 1000 1).getD (argmaxIdx ((pyRange 1 1000 1).map f)) 0 ∧
    (pyRange 1 1000 1).getD (argmaxIdx ((pyRange 1 1000 1).map f)) 0 ≤ 999 ∧
    ((pyRange 1 1000 1).map f).getD (argmaxIdx ((pyRange 1 1000 1).map f)) 0 =
      f ((pyRange 1 1000 1).getD (argmaxIdx ((pyRange 1 1000 1).map f)) 0) ∧
    (∀ d, 1 ≤ d → d ≤ 999 →
      f d ≤ ((pyRange 1 1000 1).map f).getD (argmaxIdx ((pyRange 1 1000 1).map f)) 0) ∧
    (∀ d, 1 ≤ d → d < (pyRange 1 1000 1).getD (argmaxIdx ((pyRange 1 1000 1).map f)) 0 →
      f d < ((pyRange 1 1000 1).map f).getD (argmaxIdx ((pyRange 1 1000 1).map f)) 0) := by
  have hlen : pyRangeLen 1 1000 1 = 999 := by decide
  have hdlen : (pyRange 1 1000 1).length = 999 := by simp [pyRange, hlen]
  have hslen : ((pyRange 1 1000 1).map f).length = 999 := by simp [hdlen]
  have hsne : (pyRange 1 1000 1).map f ≠ [] := by
    intro hnil
    rw [hnil] at hslen
    simp at hslen
  have hbi : argmaxIdx ((pyRange 1 1000 1).map f) < 999 := by
    have := argmaxIdx_lt_length _ hsne
    rwa [hslen] at this
  have hgetD : ∀ i, i < 999 → (pyRange 1 1000 1).getD i 0 = 1 + i := by
    intro i hi
    have := pyRange_getD 1 1000 1 i (by rw [hlen]; exact hi)
    simpa using this
  have hsget : ∀ i, i < 999 → ((pyRange 1 1000 1).map f).getD i 0 = f (1 + i) := by
    intro i hi
    rw [getD_map_q f _ i (by rw [hdlen]; exact hi), hgetD i hi]
  refine ⟨?_, ?_, ?_, ?_, ?_⟩
  · rw [hgetD _ hbi]
    omega
  · rw [hgetD _ hbi]
    omega
  · rw [hsget _ hbi, hgetD _ hbi]
  · intro d h1 h9
    have hi : d - 1 < 999 := by omega
    have hle := argmaxIdx_le ((pyRange 1 1000 1).map f) (d - 1) (by rw [hslen]; exact hi)
    rw [hsget _ hi] at hle
    have he : 1 + (d - 1) = d := by omega
    rwa [he] at hle
  · intro d h1 hlt
    rw [hgetD _ hbi] at hlt
    have hj : d - 1 < argmaxIdx ((pyRange 1 1000 1).map f) := by omega
    have hfirst := argmaxIdx_first ((pyRange 1 1000 1).map f) (d - 1) hj
    rw [hsget _ (lt_trans hj hbi)] at hfirst
    have he : 1 + (d - 1) = d := by omega
    rwa [he] at hfirst

/-- C2: Algorithm 1 maximizes the validation score: best_depth lies in
the sweep 1..999, best_score is the validation score at best_depth, no
depth in the sweep scores higher, every depth before best_depth scores
strictly lower (np.argmax takes the first maximum), and the model
reported at the end is a tree fitted at exactly best_depth, whose test
score is the reported one. -/
theorem algorithm1_maximizes_validation_score
    (treeScoreFn : TreeModel → List (List ℚ) → List ℚ → ℚ)
    (x_train : List (List ℚ)) (y_train : List ℚ) (x_valid : List (List ℚ))
    (y_valid : List ℚ) (x_test : List (List ℚ)) (y_test : List ℚ) :
    1 ≤ (algorithm1 treeScoreFn x_train y_train x_valid y_valid x_test y_test).1 ∧
    (algorithm1 treeScoreFn x_train y_train x_valid y_valid x_test y_test).1 ≤ 999 ∧
    (algorithm1 treeScoreFn x_train y_train x_valid y_valid x_test y_test).2.1 =
      validScore treeScoreFn x_train y_train x_valid y_valid
        (algorithm1 treeScoreFn x_train y_train x_valid y_valid x_test y_test).1 ∧
    (∀ d, 1 ≤ d → d ≤ 999 →
      validScore treeScoreFn x_train y_train x_valid y_valid d ≤
        (algorithm1 treeScoreFn x_train y_train x_valid y_valid x_test y_test).2.1) ∧
    (∀ d, 1 ≤ d →
      d < (algorithm1 treeScoreFn x_train y_train x_valid y_valid x_test y_test).1 →
      validScore treeScoreFn x_train y_train x_valid y_valid d <
        (algorithm1 treeScoreFn x_train y_train x_valid y_valid x_test y_test).2.1) ∧
    (algorithm1 treeScoreFn x_train y_train x_valid y_valid x_test y_test).2.2.1 =
      (newTree (algorithm1 treeScoreFn x_train y_train x_valid y_valid x_test y_test).1
          none).fit x_train (NpArr.d1 y_train) ∧
    (algorithm1 treeScoreFn x_train y_train x_valid y_valid x_test y_test).2.2.2 =
      treeScoreFn
        (algorithm1 treeScoreFn x_train y_train x_valid y_valid x_test y_test).2.2.1
        x_test y_test := by
  have core := sweep999_argmax (validScore treeScoreFn x_train y_train x_valid y_valid)
  exact ⟨core.1, core.2.1, core.2.2.1, core.2.2.2.1, core.2.2.2.2, rfl, rfl⟩

/-- Closed witness for the Algorithm 1 theorem, discharging the bounds
hypotheses of its inner quantifier at depth 5. -/
theorem algorithm1_maximizes_validation_score_witness :
    validScore scoreZero [] [] [] [] 5 ≤
      (algorithm1 scoreZero [] [] [] [] [] []).2.1 :=
  (algorithm1_maximizes_validation_score scoreZero [] [] [] [] [] []).2.2.2.1 5
    (by decide) (by decide)

/-- C3: neither selection algorithm reads the test split: for any two
values of the test data (all other inputs equal) Algorithm 1 selects the
same best_depth, and Algorithm 2's selection outcome (best_depth, and
lowest_error, or the propagated exception) is the same; the test data
influence only the final reported test scores. -/
theorem selection_ignores_test_split
    (predictFn : TreeModel → List (List ℚ) → List ℚ)
    (treeScoreFn : TreeModel → List (List ℚ) → List ℚ → ℚ)
    (choiceFn : R → Nat → Nat → List Nat × R)
    (x_train : List (List ℚ)) (y_train : List ℚ) (x_valid : List (List ℚ))
    (y_valid : List ℚ) (g : R)
    (x_test y_test2x : List (List ℚ)) (y_test y_test2y : List ℚ) :
    (algorithm1 treeScoreFn x_train y_train x_valid y_valid x_test y_test).1 =
      (algorithm1 treeScoreFn x_train y_train x_valid y_valid y_test2x y_test2y).1 ∧
    Except.map (fun r => r.1)
        (algorithm2 predictFn treeScoreFn choiceFn x_train y_train x_valid y_valid
          x_test y_test g) =
      Except.map (fun r => r.1)
        (algorithm2 predictFn treeScoreFn choiceFn x_train y_train x_valid y_valid
          y_test2x y_test2y g) := by
  constructor
  · rfl
  · simp only [algorithm2]
    cases halg : algorithm2Select predictFn choiceFn x_train y_train x_valid y_valid g with
    | error e => rfl
    | ok p =>
      obtain ⟨res, g1⟩ := p
      rfl

/-- C4: the refinement loop terminates for every possible sequence of
computed errors: one iteration of the loop, from any state with
1 ≤ lower ≤ upper and any error oracle, either raises, or takes the
break branch, or moves to bounds nested in [lower, upper] with at least
one side strictly tightened, so the interval length strictly decreases
and the loop (refineLoop, defined by well-founded recursion on it)
cannot run forever. -/
theorem refineStep_breaks_or_shrinks (errOf : Nat → R → Except String (ℚ × R))
    (lower upper : Nat) (g : R) (_h1 : 1 ≤ lower) (h2 : lower ≤ upper) :
    (∃ e, refineStep errOf lower upper g = .error e) ∨
    (∃ res g1, refineStep errOf lower upper g = .ok (res, none, g1)) ∨
    (∃ res nl nu g1, refineStep errOf lower upper g = .ok (res, some (nl, nu), g1) ∧
      lower ≤ nl ∧ nu ≤ upper ∧ (lower < nl ∨ nu < upper) ∧
      nu - nl < upper - lower) := by
  cases hstep : refineStep errOf lower upper g with
  | error e => exact Or.inl ⟨e, rfl⟩
  | ok p =>
    obtain ⟨res, opt, g1⟩ := p
    cases opt with
    | none => exact Or.inr (Or.inl ⟨res, g1, rfl⟩)
    | some nn =>
      obtain ⟨nl, nu⟩ := nn
      have hs := refineStep_shrinks errOf lower upper g res nl nu g1 h2 hstep
      exact Or.inr (Or.inr
        ⟨res, nl, nu, g1, rfl, hs.1, hs.2.1, hs.2.2.2.1, hs.2.2.2.2⟩)

/-- Closed witness for the refinement-step theorem at the constant error
oracle and the initial bounds of the notebook. -/
theorem refineStep_breaks_or_shrinks_witness :
    (∃ e, refineStep errConst 1 1000 0 = .error e) ∨
    (∃ res g1, refineStep errConst 1 1000 0 = .ok (res, none, g1)) ∨
    (∃ res nl nu g1, refineStep errConst 1 1000 0 = .ok (res, some (nl, nu), g1) ∧
      1 ≤ nl ∧ nu ≤ 1000 ∧ (1 < nl ∨ nu < 1000) ∧ nu - nl < 1000 - 1) :=
  refineStep_breaks_or_shrinks errConst 1 1000 0 (by decide) (by decide)

/-- C10: with 1 ≤ lower ≤ upper the sweep step max((upper-lower)//10, 1)
is at least 1, the depths list is non-empty, and whenever the inner loop
completes with an errors list, that list is non-empty, np.argmin yields
a valid index into it, and the clamped accesses
depths[max(0, best_index-1)] and depths[min(len(depths)-1, best_index+1)]
are in range. -/
theorem sweep_indices_in_range (errOf : Nat → R → Except String (ℚ × R))
    (lower upper : Nat) (g : R) (_h1 : 1 ≤ lower) (h2 : lower ≤ upper) :
    1 ≤ max ((upper - lower) / 10) 1 ∧
    sweepDepths lower upper ≠ [] ∧
    ∀ errors g1, sweepErrors errOf (sweepDepths lower upper) g = .ok (errors, g1) →
      errors ≠ [] ∧
      argminIdx errors < errors.length ∧
      argminIdx errors - 1 < (sweepDepths lower upper).length ∧
      min ((sweepDepths lower upper).length - 1) (argminIdx errors + 1) <
        (sweepDepths lower upper).length := by
  have hlow : lower < upper + 1 := Nat.lt_succ_of_le h2
  have hL : 0 < pyRangeLen lower (upper + 1) (max ((upper - lower) / 10) 1) :=
    pyRangeLen_pos _ _ _ hlow
  have hlen : (sweepDepths lower upper).length =
      pyRangeLen lower (upper + 1) (max ((upper - lower) / 10) 1) := by
    simp [sweepDepths, pyRange]
  refine ⟨le_max_right _ _, ?_, ?_⟩
  · intro hnil
    rw [hnil] at hlen
    simp at hlen
    omega
  · intro errors g1 hok
    have herr : errors.length = (sweepDepths lower upper).length :=
      sweepErrors_length errOf _ _ _ hok
    have hepos : 0 < errors.length := by
      rw [herr, hlen]
      exact hL
    have hene : errors ≠ [] := by
      intro hnil
      rw [hnil] at hepos
      simp at hepos
    have hbi : argminIdx errors < errors.length := argminIdx_lt_length errors hene
    refine ⟨hene, hbi, ?_, ?_⟩ <;> rw [← herr] <;> omega

/-- Closed witness for the index-safety theorem at the constant error
oracle and the initial bounds of the notebook, with the errors list the
sweep actually produces there. -/
theorem sweep_indices_in_range_witness :
    sweepDepths 1 1000 ≠ [] ∧
    argminIdx (List.replicate 11 (0 : ℚ)) < (List.replicate 11 (0 : ℚ)).length ∧
    argminIdx (List.replicate 11 (0 : ℚ)) - 1 < (sweepDepths 1 1000).length :=
  have h := sweep_indices_in_range errConst 1 1000 0 (by decide) (by decide)
  have h3 := h.2.2 (List.replicate 11 (0 : ℚ)) 0 (by rfl)
  ⟨h.2.1, h3.2.1, h3.2.2.1⟩

theorem refineLoop_error (errOf : Nat → R → Except String (ℚ × R))
    (lower upper : Nat) (g : R) (h2 : lower ≤ upper) (e : String)
    (h : refineStep errOf lower upper g = .error e) :
    refineLoop errOf lower upper g h2 = .error e := by
  unfold refineLoop
  split
  · rename_i e2 heq
    rw [h] at heq
    cases heq
    rfl
  · rename_i res g1 heq
    rw [h] at heq
    cases heq
  · rename_i res nl nu g1 heq
    rw [h] at heq
    cases heq

/-- C8: estimate_variance raises its assertion error if and only if the
lengths of x_train and y_train differ at entry; and when it does, the
error propagates uncaught through Algorithm 2 (whose first sweep
iteration calls it) to the top level. -/
theorem estimate_variance_assert_iff
    (predictFn : TreeModel → List (List ℚ) → List ℚ)
    (treeScoreFn : TreeModel → List (List ℚ) → List ℚ → ℚ)
    (choiceFn : R → Nat → Nat → List Nat × R) (model : TreeModel)
    (x_train : List (List ℚ)) (y_train : List ℚ) (x_valid : List (List ℚ))
    (y_valid : List ℚ) (x_test : List (List ℚ)) (y_test : List ℚ) (g : R) :
    ((∃ e, estimate_variance predictFn choiceFn model x_train y_train x_valid g =
        .error e) ↔ x_train.length ≠ y_train.length) ∧
    (x_train.length ≠ y_train.length →
      algorithm2 predictFn treeScoreFn choiceFn x_train y_train x_valid y_valid
          x_test y_test g =
        .error "AssertionError: len(x_train) == len(y_train)") := by
  constructor
  · constructor
    · rintro ⟨e, he⟩ hl
      rw [estimate_variance, if_pos hl] at he
      cases he
    · intro hne
      refine ⟨"AssertionError: len(x_train) == len(y_train)", ?_⟩
      rw [estimate_variance, if_neg hne]
  · intro hne
    have hev : ∀ (m : TreeModel) (g0 : R),
        estimate_variance predictFn choiceFn m x_train y_train x_valid g0 =
          .error "AssertionError: len(x_train) == len(y_train)" := by
      intro m g0
      rw [estimate_variance, if_neg hne]
    have hde : ∀ (d : Nat) (g0 : R),
        depthError predictFn choiceFn x_train y_train x_valid y_valid d g0 =
          .error "AssertionError: len(x_train) == len(y_train)" := by
      intro d g0
      simp only [depthError]
      rw [hev]
    have hsd : sweepDepths 1 1000 =
        1 :: [100, 199, 298, 397, 496, 595, 694, 793, 892, 991] := by decide
    have hsw : sweepErrors (depthError predictFn choiceFn x_train y_train x_valid y_valid)
        (sweepDepths 1 1000) g =
          .error "AssertionError: len(x_train) == len(y_train)" := by
      rw [hsd]
      simp only [sweepErrors]
      rw [hde]
    have hstep : refineStep (depthError predictFn choiceFn x_train y_train x_valid y_valid)
        1 1000 g = .error "AssertionError: len(x_train) == len(y_train)" := by
      simp only [refineStep]
      rw [hsw]
    have hloop : algorithm2Select predictFn choiceFn x_train y_train x_valid y_valid g =
        .error "AssertionError: len(x_train) == len(y_train)" := by
      simp only [algorithm2Select]
      exact refineLoop_error _ _ _ _ _ _ hstep
    simp only [algorithm2]
    rw [hloop]

/-- Closed witness for the assertion theorem: with a 2-row x_train and a
1-element y_train, estimate_variance raises and Algorithm 2 propagates
the assertion error to the top. -/
theorem estimate_variance_assert_iff_witness :
    ((∃ e, estimate_variance predZero choiceZero (newTree 3 (some 2))
        [[1], [2]] [10] [] 0 = .error e) ↔
      ([[(1 : ℚ)], [2]].length ≠ [(10 : ℚ)].length)) ∧
    algorithm2 predZero scoreZero choiceZero [[1], [2]] [10] [] [] [] [] 0 =
      .error "AssertionError: len(x_train) == len(y_train)" :=
  have h := estimate_variance_assert_iff predZero scoreZero choiceZero
    (newTree 3 (some 2)) [[1], [2]] [10] [] [] [] [] 0
  ⟨h.1, h.2 (by decide)⟩

end Algorithms

section MutationAndBug

variable {R : Type}

/-- C9 (amended): estimate_variance does mutate the caller's model: the
fits inside its bootstrap loop overwrite the model's fitted state, so
the state returned is that of the loop's final fit and the entry fitted
state is discarded (the whole result is independent of it), while the
hyperparameters max_depth and random_state are preserved. -/
theorem estimate_variance_overwrites_entry_fit
    (predictFn : TreeModel → List (List ℚ) → List ℚ)
    (choiceFn : R → Nat → Nat → List Nat × R) (d : Nat) (rs : Option Nat)
    (o1 o2 : Option (List (List ℚ) × NpArr))
    (x_train : List (List ℚ)) (y_train : List ℚ) (x_valid : List (List ℚ))
    (g : R) (hlen : x_train.length = y_train.length) :
    estimate_variance predictFn choiceFn (TreeModel.mk d rs o1)
        x_train y_train x_valid g =
      estimate_variance predictFn choiceFn (TreeModel.mk d rs o2)
        x_train y_train x_valid g ∧
    ∀ v m1 g1, estimate_variance predictFn choiceFn (TreeModel.mk d rs o1)
        x_train y_train x_valid g = .ok (v, m1, g1) →
      m1.maxDepth = d ∧ m1.randomState = rs := by
  have hloop := evLoop_entry_fit_irrelevant predictFn choiceFn x_train
    (NpArr.d2 x_train) x_valid x_train.length 99 d rs o1 o2 g
  constructor
  · simp only [estimate_variance]
    rw [if_pos hlen, if_pos hlen]
    rw [show (100 : Nat) = 99 + 1 from rfl, hloop]
  · intro v m1 g1 h
    simp only [estimate_variance] at h
    rw [if_pos hlen] at h
    injection h with h2
    have hm := congrArg (fun p : ℚ × TreeModel × R => p.2.1) h2
    simp only at hm
    have hk := evLoop_keeps_hyperparams predictFn choiceFn x_train
      (NpArr.d2 x_train) x_valid x_train.length 100 (TreeModel.mk d rs o1) g
    rw [← hm]
    exact hk

/-- Closed witness for the overwrite theorem: two entry models differing
only in fitted state produce identical results. -/
theorem estimate_variance_overwrites_entry_fit_witness :
    ([[(1 : ℚ)]].length = [(7 : ℚ)].length) ∧
    estimate_variance predZero choiceZero
        (TreeModel.mk 3 (some 2) (some ([[5]], NpArr.d1 [9]))) [[1]] [7] [] 0 =
      estimate_variance predZero choiceZero
        (TreeModel.mk 3 (some 2) none) [[1]] [7] [] 0 :=
  ⟨by decide,
    (estimate_variance_overwrites_entry_fit predZero choiceZero 3 (some 2)
      (some ([[5]], NpArr.d1 [9])) none [[1]] [7] [] 0 (by decide)).1⟩

/-- C9 counterexample: after a call to estimate_variance returns, the
fitted state of the caller's model is NOT what it was at entry: a model
entering fitted on ([[5]], [9]) leaves fitted on the final bootstrap
subset ([[1]], [[1]]) instead. -/
theorem estimate_variance_mutates_callers_model :
    modelOfRun (estimate_variance predZero choiceZero
        (TreeModel.mk 3 (some 2) (some ([[5]], NpArr.d1 [9])))
        [[1], [2]] [10, 20] [[0]] 0) =
      some (TreeModel.mk 3 (some 2) (some ([[1]], NpArr.d2 [[1]]))) ∧
    TreeModel.mk 3 (some 2) (some ([[1]], NpArr.d2 [[1]])) ≠
      TreeModel.mk 3 (some 2) (some ([[5]], NpArr.d1 [9])) := by
  exact ⟨by decide, by decide⟩

/-- C1 (the labels bug): because of the source line
y_train = np.array(x_train), every bootstrap fit inside
estimate_variance uses rows of x_train as its labels, not the paired
y_train values: at x_train = [[1],[2]], y_train = [10,20] with the
subset {0} drawn each iteration, the model leaves the call fitted with
label array [[1]] (a slice of x_train), which is not the paired label
slice [10]. -/
theorem estimate_variance_fits_features_as_labels :
    modelOfRun (estimate_variance predZero choiceZero (newTree 3 (some 2))
        [[1], [2]] [10, 20] [[0]] 0) =
      some (TreeModel.mk 3 (some 2) (some ([[1]], NpArr.d2 [[1]]))) ∧
    NpArr.d2 [[1]] ≠ NpArr.d1 [10] := by
  exact ⟨by decide, by decide⟩

end MutationAndBug

end ValidationPitfall
